import Mathlib

/-
Verification of the DeepSeek-OCR model downloader (`download_models.py`).

The script has three parts, embedded below in order:
  * `download_file` — the resumable fetcher (retry loop, Range header,
    fallback on ignored range, append/truncate write, size check);
  * `get_file_list` — the file lister with fallback to `REQUIRED_FILES`;
  * `download_models` / the `__main__` block — the orchestrator loop and
    process exit codes.

The outside world (HTTP) is an oracle parameter: a server maps the index of
the GET request issued during one fetcher call, together with the request's
`Range` header, to either a network-level exception or a response.  A file on
disk is `Option (List Nat)` — `none` when the destination does not exist,
otherwise its byte content.  Bytes are `Nat`; their values are opaque to the
script.
-/

/-- One HTTP GET request as issued by the downloader.  Only the `Range`
header matters to the script: `rangeStart = some n` models the header
`Range: bytes=n-`, `none` a plain GET without a Range header. -/
structure Request where
  rangeStart : Option Nat
deriving DecidableEq

/-- An HTTP response as seen by the downloader.  `contentLength` models
`int(response.headers.get('content-length', 0))`, so a missing header is 0.
`chunks` are the bodies yielded by `iter_content(chunk_size=8192)` before the
stream ends or dies; `streamOk = false` means iterating the body raises a
network exception after the listed chunks were delivered and written. -/
structure HttpResponse where
  status : Nat
  contentLength : Nat
  chunks : List (List Nat)
  streamOk : Bool
deriving DecidableEq

/-- Outcome of issuing one GET: either `requests.get` itself raises
(connection error, timeout), or a response object is returned. -/
inductive ReqOutcome where
  | netErr : ReqOutcome
  | resp : HttpResponse → ReqOutcome
deriving DecidableEq

/-- The network as an oracle: the outcome of the `i`-th GET request issued
during one fetcher call, given that request. -/
abbrev ServerOracle := Nat → Request → ReqOutcome

/-- Bytes a response's stream writes to the open file: every delivered chunk,
skipping empty chunks (the `if chunk:` guard at line 96). -/
def bytesWritten (r : HttpResponse) : List Nat :=
  (r.chunks.filter fun c => !c.isEmpty).flatten

/-- Result of the request/fallback block of one attempt
(`download_models.py` lines 76-82): `response = none` means the GET (or the
fallback re-GET) raised; `initialPos` is the value of `initial_pos` after the
block (reset to 0 by the fallback, even when the re-GET then raises);
`requests` are the GETs issued, in order. -/
structure ResolveResult where
  response : Option HttpResponse
  initialPos : Nat
  requests : List Request
deriving DecidableEq

/-- Lines 76-82 of `download_models.py`: issue the GET with the (fixed)
resume header; if the status is 416, or 200 while `initial_pos > 0`, reset
`initial_pos` to 0 and re-issue a plain GET without a Range header. -/
def resolveResponse (server : ServerOracle) (reqCount : Nat)
    (initialPos : Nat) (resumeHeader : Option Nat) : ResolveResult :=
  let req1 : Request := ⟨resumeHeader⟩
  match server reqCount req1 with
  | .netErr => ⟨none, initialPos, [req1]⟩
  | .resp r =>
    if r.status = 416 ∨ (r.status = 200 ∧ 0 < initialPos) then
      match server (reqCount + 1) ⟨none⟩ with
      | .netErr => ⟨none, 0, [req1, ⟨none⟩]⟩
      | .resp r2 => ⟨some r2, 0, [req1, ⟨none⟩]⟩
    else ⟨some r, initialPos, [req1]⟩

/-- Result of processing one obtained response: whether the attempt returned
`True`, and the destination file afterwards. -/
structure ProcessResult where
  ok : Bool
  file : Option (List Nat)
deriving DecidableEq

/-- The open mode of line 89: `'ab'` — append to the current content —
exactly when `initial_pos > 0` and the status is 206, else `'wb'` — truncate,
so writing starts from the empty file. -/
def writeStart (file : Option (List Nat)) (r : HttpResponse)
    (initialPos : Nat) : List Nat :=
  if 0 < initialPos ∧ r.status = 206 then file.getD [] else []

/-- Lines 84-104 of `download_models.py`: reject a status outside {200, 206};
compute `total_size = content-length + initial_pos`; open the destination in
append mode when `initial_pos > 0` and the status is 206, else in
truncate-write mode; stream the chunks; raise if the stream died; raise
"size mismatch" when `total_size > 0` and the on-disk size differs; else
return `True`.  A raise leaves the file at whatever was written. -/
def processResponse (file : Option (List Nat)) (r : HttpResponse)
    (initialPos : Nat) : ProcessResult :=
  if ¬ (r.status = 200 ∨ r.status = 206) then ⟨false, file⟩
  else
    let totalSize := r.contentLength + initialPos
    let newFile := some (writeStart file r initialPos ++ bytesWritten r)
    if ¬ r.streamOk then ⟨false, newFile⟩
    else if 0 < totalSize ∧ (newFile.getD []).length ≠ totalSize then
      ⟨false, newFile⟩
    else ⟨true, newFile⟩

/-- Result of one iteration of the retry loop: whether it returned `True`,
the destination file, the value of `initial_pos` afterwards, and the GETs
issued. -/
structure AttemptResult where
  ok : Bool
  file : Option (List Nat)
  initialPos : Nat
  requests : List Request
deriving DecidableEq

/-- One iteration of the `for attempt in range(max_retries)` loop
(lines 75-104): the request/fallback block, then response processing.  Note
`resume_header` is built once before the loop and never updated, so every
attempt receives the same `resumeHeader` argument. -/
def doAttempt (server : ServerOracle) (reqCount : Nat)
    (file : Option (List Nat)) (initialPos : Nat)
    (resumeHeader : Option Nat) : AttemptResult :=
  let rr := resolveResponse server reqCount initialPos resumeHeader
  match rr.response with
  | none => ⟨false, file, rr.initialPos, rr.requests⟩
  | some r =>
    let p := processResponse file r rr.initialPos
    ⟨p.ok, p.file, rr.initialPos, rr.requests⟩

/-- Result of one `download_file` call: the returned boolean, the final
destination file, every GET issued (in order), and the `time.sleep`
durations performed between attempts (in order). -/
structure FetchResult where
  success : Bool
  file : Option (List Nat)
  requests : List Request
  sleeps : List Nat
deriving DecidableEq

/-- The retry loop of `download_file` (lines 74-116), structurally recursing
on the number of iterations the `for` loop still has.  On a failed attempt
with `attempt < max_retries - 1`, sleep `2 ^ attempt` seconds and continue;
on the last attempt return `False` with no sleep; `initial_pos` flows from
one attempt to the next, `resume_header` never changes. -/
def fetchGo (server : ServerOracle) (maxRetries : Nat) :
    Nat → Nat → Nat → Option (List Nat) → Nat → Option Nat → FetchResult
  | 0, _, _, file, _, _ => ⟨false, file, [], []⟩
  | remaining + 1, attempt, reqCount, file, initialPos, resumeHeader =>
    let a := doAttempt server reqCount file initialPos resumeHeader
    if a.ok then ⟨true, a.file, a.requests, []⟩
    else if attempt < maxRetries - 1 then
      let rest := fetchGo server maxRetries remaining (attempt + 1)
        (reqCount + a.requests.length) a.file a.initialPos resumeHeader
      ⟨rest.success, rest.file, a.requests ++ rest.requests,
        2 ^ attempt :: rest.sleeps⟩
    else ⟨false, a.file, a.requests, []⟩

/-- Lines 67-72 of `download_models.py`: `initial_pos` is the destination's
size when it exists, else 0. -/
def initPosOf : Option (List Nat) → Nat
  | some content => content.length
  | none => 0

/-- Lines 67-72 of `download_models.py`: the Range header is installed
exactly when the destination exists (even when its size is 0), with the
size observed before the first attempt. -/
def resumeHeaderOf : Option (List Nat) → Option Nat
  | some content => some content.length
  | none => none

/-- The fetcher `download_file(url, destination, max_retries)` of
`download_models.py` (lines 57-116), with the network abstracted as an
oracle and the destination file passed in and returned explicitly. -/
def download_file (server : ServerOracle) (destFile : Option (List Nat))
    (maxRetries : Nat) : FetchResult :=
  fetchGo server maxRetries maxRetries 0 0 destFile
    (initPosOf destFile) (resumeHeaderOf destFile)

/-- A Python value as relevant to `get_file_list`: the parsed JSON body and
its components.  Dicts and lists are encoded first-order as cons chains so
equality stays decidable; `other` stands for any value that is neither a
string, dict nor list (numbers, None, booleans). -/
inductive PyVal where
  | strV : String → PyVal
  | dictNil : PyVal
  | dictCons : String → PyVal → PyVal → PyVal
  | listNil : PyVal
  | listCons : PyVal → PyVal → PyVal
  | other : PyVal
deriving DecidableEq

/-- Python's `isinstance(v, list)`. -/
def isPyList : PyVal → Bool
  | .listNil => true
  | .listCons _ _ => true
  | _ => false

/-- The items of a Python list value (empty for non-lists). -/
def listItems : PyVal → List PyVal
  | .listNil => []
  | .listCons x rest => x :: listItems rest
  | _ => []

/-- Python's `key in v`: key membership for dicts, element membership for
lists, substring test for strings, `TypeError` (modelled as `.error`) for
anything else. -/
def pyIn (key : String) : PyVal → Except Unit Bool
  | .dictNil => .ok false
  | .dictCons k _ rest => if k = key then .ok true else pyIn key rest
  | .listNil => .ok false
  | .listCons x rest => if x = .strV key then .ok true else pyIn key rest
  | .strV s => .ok (decide (List.IsInfix key.toList s.toList))
  | .other => .error ()

/-- Python's `v[key]` for a string key: dict lookup (`KeyError` when the key
is absent), `TypeError` for every non-dict. -/
def pyGet (key : String) : PyVal → Except Unit PyVal
  | .dictCons k v rest => if k = key then .ok v else pyGet key rest
  | _ => .error ()

/-- The comprehension at line 45 of `download_models.py`:
`[item['Path'] for item in data['Data'] if 'Path' in item]`, over the cons
chain of a Python list; any `TypeError` raised while testing `'Path' in item`
or subscripting propagates. -/
def extractPaths : PyVal → Except Unit (List PyVal)
  | .listCons item rest =>
    match pyIn "Path" item with
    | .error e => .error e
    | .ok b =>
      if b then
        match pyGet "Path" item with
        | .error e => .error e
        | .ok p =>
          match extractPaths rest with
          | .error e => .error e
          | .ok tail => .ok (p :: tail)
      else extractPaths rest
  | .listNil => .ok []
  | _ => .error ()

/-- Lines 19-30 of `download_models.py`: the hardcoded fallback list of 10
filenames. -/
def REQUIRED_FILES : List String :=
  ["config.json",
   "configuration.json",
   "preprocessor_config.json",
   "tokenizer_config.json",
   "tokenizer.json",
   "special_tokens_map.json",
   "vocab.json",
   "merges.txt",
   "model.safetensors",
   "pytorch_model.bin"]

/-- Outcome of the listing GET at line 40: either the request, the JSON
parse, or a later expression inside the `try` raised before the status/shape
checks could run (`raised`), or a response with the given status whose body
parsed to the given value (`ok`). -/
inductive ListingOutcome where
  | raised : ListingOutcome
  | ok : Nat → PyVal → ListingOutcome

/-- The lister `get_file_list()` of `download_models.py` (lines 32-54): on a
200 response whose body is a dict with a `'Data'` list, return the `'Path'`
fields of its items; every other path — non-200 status, missing or non-list
`'Data'`, any exception — returns `REQUIRED_FILES`. -/
def get_file_list (o : ListingOutcome) : List PyVal :=
  match o with
  | .raised => REQUIRED_FILES.map PyVal.strV
  | .ok status data =>
    if status = 200 then
      match pyIn "Data" data with
      | .error _ => REQUIRED_FILES.map PyVal.strV
      | .ok b =>
        if b then
          match pyGet "Data" data with
          | .error _ => REQUIRED_FILES.map PyVal.strV
          | .ok d =>
            if isPyList d then
              match extractPaths d with
              | .ok paths => paths
              | .error _ => REQUIRED_FILES.map PyVal.strV
            else REQUIRED_FILES.map PyVal.strV
        else REQUIRED_FILES.map PyVal.strV
    else REQUIRED_FILES.map PyVal.strV

/-- State of the orchestrator loop of `download_models()` (lines 136-156):
the running counters, the local filesystem (destination name to file), and
the trace of filenames for which `download_file` was invoked. -/
structure OrchState where
  successCount : Nat
  failedFiles : List PyVal
  fs : PyVal → Option (List Nat)
  fetchCalls : List PyVal

/-- The `for filename in file_list` loop of `download_models()`
(lines 139-156): skip-and-count when the destination exists, otherwise call
`download_file` (each file gets its own network oracle) and count the result.
The destination file is whatever `download_file` leaves behind. -/
def orchLoop (servers : PyVal → ServerOracle) :
    List PyVal → OrchState → OrchState
  | [], st => st
  | filename :: rest, st =>
    if (st.fs filename).isSome then
      orchLoop servers rest { st with successCount := st.successCount + 1 }
    else
      let r := download_file (servers filename) (st.fs filename) 3
      if r.success then
        orchLoop servers rest
          { st with
            successCount := st.successCount + 1,
            fs := fun n => if n = filename then r.file else st.fs n,
            fetchCalls := st.fetchCalls ++ [filename] }
      else
        orchLoop servers rest
          { st with
            failedFiles := st.failedFiles ++ [filename],
            fs := fun n => if n = filename then r.file else st.fs n,
            fetchCalls := st.fetchCalls ++ [filename] }

/-- The orchestrator `download_models()` of `download_models.py`
(lines 119-172): obtain the file list, run the loop from zeroed counters on
the given filesystem, and return `True` exactly when `failed_files` stayed
empty, together with the final loop state. -/
def download_models (listing : ListingOutcome)
    (servers : PyVal → ServerOracle) (fs0 : PyVal → Option (List Nat)) :
    Bool × OrchState :=
  let st := orchLoop servers (get_file_list listing) ⟨0, [], fs0, []⟩
  (st.failedFiles.isEmpty, st)

/-- How one process run of the script ends: `download_models` returned a
boolean, or a `KeyboardInterrupt` reached the top level, or some other
exception did. -/
inductive RunOutcome where
  | completed : Bool → RunOutcome
  | interrupted : RunOutcome
  | errored : RunOutcome
deriving DecidableEq

/-- The `__main__` block (lines 175-186): exit code 0 exactly when
`download_models()` returned `True`; 1 on a `False` return, on interrupt and
on an unhandled exception. -/
def mainExit : RunOutcome → Nat
  | .completed success => if success then 0 else 1
  | .interrupted => 1
  | .errored => 1

/-- The distinguishing message the `__main__` block prints for abnormal
endings (lines 180 and 183); a completed run prints its summary inside
`download_models` instead. -/
def mainMessage : RunOutcome → Option String
  | .completed _ => none
  | .interrupted => some "下载已取消"
  | .errored => some "发生错误"


/-- A server that always answers a ranged request with a plain 200 full-body
response, for the fallback witness. -/
def fbServer : ServerOracle := fun _ _ => .resp ⟨200, 5, [[1, 2, 3, 4, 5]], true⟩

/-- The response used by the size-check witness: status 200, content length
3, streaming exactly 3 bytes. -/
def szResp : HttpResponse := ⟨200, 3, [[1, 2, 3]], true⟩

/-- A server always returning `szResp`. -/
def szServer : ServerOracle := fun _ _ => .resp szResp

/-- The response used by the resume witness: 206, one remaining byte. -/
def rsResp : HttpResponse := ⟨206, 1, [[9]], true⟩

/-- A server always returning `rsResp`. -/
def rsServer : ServerOracle := fun _ _ => .resp rsResp
/-- A server for the stale-resume scenario: the first GET answers 206 with 8
declared remaining bytes but dies after streaming one byte; every later GET
raises a network error. -/
def staleServer : ServerOracle := fun i _ =>
  if i = 0 then .resp ⟨206, 8, [[7]], false⟩ else .netErr

/-- A listing response naming a single file, `config.json`. -/
def oneFileListing : ListingOutcome :=
  .ok 200 (.dictCons "Data"
    (.listCons (.dictCons "Path" (.strV "config.json") .dictNil) .listNil)
    .dictNil)

/-- A filesystem holding a 3-byte partial `config.json` (of an expected
10-byte file) left behind by an interrupted earlier run. -/
def partialFs : PyVal → Option (List Nat) :=
  fun n => if n = PyVal.strV "config.json" then some [1, 2, 3] else none

/-- A network that would complete the partial file: it honors the 3-byte
resume offset with a 206 response carrying the remaining 7 bytes. -/
def readyServers : PyVal → ServerOracle :=
  fun _ _ _ => .resp ⟨206, 7, [[4, 5, 6, 7, 8, 9, 10]], true⟩

/-- A filesystem on which every destination already exists. -/
def allPresentFs : PyVal → Option (List Nat) := fun _ => some []

/-- A network whose every request raises, for showing that skipped files
cause no network traffic at all. -/
def inertServers : PyVal → ServerOracle := fun _ _ _ => .netErr
/-- Every path returned by a successful run of the listing comprehension is
the `'Path'` field of one of the listed items. -/
theorem extractPaths_mem : ∀ (d : PyVal) (paths : List PyVal),
    extractPaths d = .ok paths →
    ∀ p ∈ paths, ∃ item ∈ listItems d, pyGet "Path" item = .ok p := by
  intro d
  induction d with
  | strV s => intro paths h; simp [extractPaths] at h
  | dictNil => intro paths h; simp [extractPaths] at h
  | dictCons k v rest ihv ihr => intro paths h; simp [extractPaths] at h
  | other => intro paths h; simp [extractPaths] at h
  | listNil =>
    intro paths h p hp
    simp only [extractPaths, Except.ok.injEq] at h
    subst h
    simp at hp
  | listCons item rest ihitem ihrest =>
    intro paths h p hp
    simp only [extractPaths] at h
    split at h
    · cases h
    · rename_i b hin
      by_cases hb : b = true
      · subst hb
        rw [if_pos rfl] at h
        split at h
        · cases h
        · rename_i q hget
          split at h
          · cases h
          · rename_i tail hrest
            cases h
            rcases List.mem_cons.mp hp with rfl | hp'
            · exact ⟨item, by simp [listItems], hget⟩
            · obtain ⟨it, hit, hg⟩ := ihrest tail hrest p hp'
              exact ⟨it, by simp [listItems]; right; exact hit, hg⟩
      · rw [if_neg hb] at h
        obtain ⟨it, hit, hg⟩ := ihrest paths h p hp
        exact ⟨it, by simp [listItems]; right; exact hit, hg⟩

/-- C4: `get_file_list` never raises (it is a total function into a plain
list) and its result is all-or-nothing: either the response had status 200
with a `'Data'` list and every returned entry is the `'Path'` field of one
of that list's items, or the result is exactly the hardcoded 10-name
default list — never a mixture. -/
theorem get_file_list_all_or_nothing (o : ListingOutcome) :
    ((∃ status data d, o = .ok status data ∧ status = 200 ∧
        pyGet "Data" data = .ok d ∧ isPyList d = true ∧
        ∀ p ∈ get_file_list o, ∃ item ∈ listItems d, pyGet "Path" item = .ok p) ∨
      get_file_list o = REQUIRED_FILES.map PyVal.strV) ∧
    REQUIRED_FILES.length = 10 := by
  refine ⟨?_, rfl⟩
  cases o with
  | raised => exact Or.inr rfl
  | ok status data =>
    by_cases hs : status = 200
    case neg => right; simp [get_file_list, hs]
    subst hs
    cases hin : pyIn "Data" data with
    | error e => right; simp [get_file_list, hin]
    | ok b =>
      cases b with
      | false => right; simp [get_file_list, hin]
      | true =>
        cases hget : pyGet "Data" data with
        | error e => right; simp [get_file_list, hin, hget]
        | ok d =>
          by_cases hl : isPyList d = true
          case neg => right; simp [get_file_list, hin, hget, hl]
          cases hep : extractPaths d with
          | error e => right; simp [get_file_list, hin, hget, hl, hep]
          | ok paths =>
            left
            refine ⟨200, data, d, rfl, rfl, hget, hl, ?_⟩
            have hres : get_file_list (.ok 200 data) = paths := by
              simp [get_file_list, hin, hget, hl, hep]
            rw [hres]
            exact extractPaths_mem d paths hep

/-- Each loop iteration of the orchestrator adds exactly one to
`success_count + len(failed_files)`. -/
theorem orchLoop_count (servers : PyVal → ServerOracle) :
    ∀ (rest : List PyVal) (st : OrchState),
      (orchLoop servers rest st).successCount
          + (orchLoop servers rest st).failedFiles.length
        = st.successCount + st.failedFiles.length + rest.length := by
  intro rest
  induction rest with
  | nil => intro st; simp [orchLoop]
  | cons f rest ih =>
    intro st
    by_cases hex : (st.fs f).isSome
    · simp only [orchLoop, hex, if_pos]
      rw [ih]
      simp
      omega
    · by_cases hsucc : (download_file (servers f) (st.fs f) 3).success
      · simp only [orchLoop, hex, if_neg, Bool.false_eq_true, if_false, hsucc, if_true]
        rw [ih]
        simp
        omega
      · simp only [orchLoop, hex, if_neg, Bool.false_eq_true, if_false, hsucc, if_true]
        rw [ih]
        simp
        omega

/-- C10: after the orchestrator loop, every filename was counted exactly
once — `success_count + len(failed_files) = len(file_list)` — and
`download_models` returns `True` exactly when `failed_files` is empty. -/
theorem download_models_accounting (listing : ListingOutcome)
    (servers : PyVal → ServerOracle) (fs0 : PyVal → Option (List Nat)) :
    (download_models listing servers fs0).2.successCount
        + (download_models listing servers fs0).2.failedFiles.length
      = (get_file_list listing).length ∧
    ((download_models listing servers fs0).1 = true ↔
      (download_models listing servers fs0).2.failedFiles = []) := by
  constructor
  · have h := orchLoop_count servers (get_file_list listing) ⟨0, [], fs0, []⟩
    simpa [download_models] using h
  · simp [download_models, List.isEmpty_iff]


/-- In a run of the retry loop that ends with `False`, a sleep of
`2 ^ attempt` seconds follows every iteration except the last one the loop
executes. -/
theorem fetchGo_fail_sleeps (server : ServerOracle) (m : Nat) :
    ∀ (remaining attempt c : Nat) (f : Option (List Nat)) (ip : Nat)
      (rh : Option Nat),
      attempt + remaining = m →
      (fetchGo server m remaining attempt c f ip rh).success = false →
      (fetchGo server m remaining attempt c f ip rh).sleeps
        = (List.range (remaining - 1)).map fun i => 2 ^ (attempt + i) := by
  intro remaining
  induction remaining with
  | zero => intro attempt c f ip rh hm h; simp [fetchGo]
  | succ k ih =>
    intro attempt c f ip rh hm h
    by_cases h1 : (doAttempt server c f ip rh).ok
    · simp [fetchGo, h1] at h
    · by_cases h2 : attempt < m - 1
      · simp only [fetchGo] at h ⊢
        simp [h1, h2] at h ⊢
        have hm' : (attempt + 1) + k = m := by omega
        rw [ih (attempt + 1) _ _ _ _ hm' h]
        obtain ⟨j, rfl⟩ : ∃ j, k = j + 1 := ⟨k - 1, by omega⟩
        rw [List.range_succ_eq_map]
        simp only [Nat.add_sub_cancel, List.map_cons, List.map_map]
        congr 1
        apply List.map_congr_left
        intro i _
        simp only [Function.comp]
        congr 1
        omega
      · simp only [fetchGo] at h ⊢
        simp [h1, h2] at h ⊢
        omega

/-- C5: with `max_retries = 3`, when every attempt fails (the call returns
`False`) the induced sleeps are exactly `2 ^ 0 = 1` second after the first
failed attempt and `2 ^ 1 = 2` seconds after the second, with no sleep after
the exhausted third attempt, for a total induced sleep of 3 seconds. -/
theorem download_file_backoff_total (server : ServerOracle)
    (destFile : Option (List Nat))
    (h : (download_file server destFile 3).success = false) :
    (download_file server destFile 3).sleeps = [2 ^ 0, 2 ^ 1] ∧
    (download_file server destFile 3).sleeps.sum = 3 := by
  have hs := fetchGo_fail_sleeps server 3 3 0 0 destFile
    (initPosOf destFile) (resumeHeaderOf destFile) rfl h
  have hs' : (download_file server destFile 3).sleeps = [2 ^ 0, 2 ^ 1] := by
    rw [download_file, hs]
    rfl
  exact ⟨hs', by rw [hs']; rfl⟩

/-- Witness for C5: a server whose every request raises a network error
makes all three attempts fail, and the run sleeps 1 second then 2 seconds. -/
theorem download_file_backoff_total_witness :
    (download_file (fun _ _ => .netErr) none 3).success = false ∧
    (download_file (fun _ _ => .netErr) none 3).sleeps = [2 ^ 0, 2 ^ 1] ∧
    (download_file (fun _ _ => .netErr) none 3).sleeps.sum = 3 := by
  exact ⟨rfl, download_file_backoff_total (fun _ _ => .netErr) none rfl⟩

/-- One unfolding of the retry loop, for rewriting without recursive
unfolding of numeral arguments. -/
theorem fetchGo_step (server : ServerOracle) (m remaining attempt c : Nat)
    (f : Option (List Nat)) (ip : Nat) (rh : Option Nat) :
    fetchGo server m (remaining + 1) attempt c f ip rh
      = (let a := doAttempt server c f ip rh
         if a.ok then ⟨true, a.file, a.requests, []⟩
         else if attempt < m - 1 then
           let rest := fetchGo server m remaining (attempt + 1)
             (c + a.requests.length) a.file a.initialPos rh
           ⟨rest.success, rest.file, a.requests ++ rest.requests,
             2 ^ attempt :: rest.sleeps⟩
         else ⟨false, a.file, a.requests, []⟩) := rfl

/-- Whatever later checks do, an attempt with an accepted status leaves the
destination holding the mode-selected start content followed by the streamed
bytes. -/
theorem processResponse_file_eq (file : Option (List Nat)) (r : HttpResponse)
    (ip : Nat) (hok : r.status = 200 ∨ r.status = 206) :
    (processResponse file r ip).file
      = some (writeStart file r ip ++ bytesWritten r) := by
  simp [processResponse, hok, apply_ite ProcessResult.file]

/-- With an accepted status and a stream that completes, an attempt reduces
to the size check alone. -/
theorem processResponse_eq (file : Option (List Nat)) (r : HttpResponse)
    (ip : Nat) (hok : r.status = 200 ∨ r.status = 206)
    (hstream : r.streamOk = true) :
    processResponse file r ip
      = if 0 < r.contentLength + ip ∧
            (writeStart file r ip ++ bytesWritten r).length
              ≠ r.contentLength + ip
        then ⟨false, some (writeStart file r ip ++ bytesWritten r)⟩
        else ⟨true, some (writeStart file r ip ++ bytesWritten r)⟩ := by
  simp [processResponse, hok, hstream]

/-- The size check of line 101, isolated: given an accepted status and a
completed stream, the attempt fails exactly when `total_size > 0` and the
on-disk size differs from it. -/
theorem processResponse_ok_iff (file : Option (List Nat)) (r : HttpResponse)
    (ip : Nat) (hok : r.status = 200 ∨ r.status = 206)
    (hstream : r.streamOk = true) :
    ((processResponse file r ip).ok = false ↔
      0 < r.contentLength + ip ∧
        ((processResponse file r ip).file.getD []).length
          ≠ r.contentLength + ip) := by
  rw [processResponse_eq file r ip hok hstream]
  by_cases hc : 0 < r.contentLength + ip ∧
      (writeStart file r ip ++ bytesWritten r).length ≠ r.contentLength + ip
  · rw [if_pos hc]
    simpa using hc
  · rw [if_neg hc]
    simpa using hc

/-- C6: when an attempt's request carried a Range header with
`initial_pos > 0` and the server replied 416, or replied 200 despite the
requested range, then `initial_pos` is reset to 0, a plain GET with no Range
header is re-issued, and the destination is opened in truncate-write mode:
the file afterwards holds exactly the second response's streamed bytes from
byte zero, never appended after the old partial content. -/
theorem download_file_range_fallback (server : ServerOracle) (reqCount : Nat)
    (file : Option (List Nat)) (initialPos : Nat) (rh : Option Nat)
    (r r2 : HttpResponse)
    (h1 : server reqCount ⟨rh⟩ = .resp r)
    (hfb : r.status = 416 ∨ (r.status = 200 ∧ 0 < initialPos))
    (h2 : server (reqCount + 1) ⟨none⟩ = .resp r2)
    (hok : r2.status = 200 ∨ r2.status = 206) :
    (resolveResponse server reqCount initialPos rh).initialPos = 0 ∧
    (resolveResponse server reqCount initialPos rh).requests
      = [⟨rh⟩, ⟨none⟩] ∧
    (doAttempt server reqCount file initialPos rh).file
      = some (bytesWritten r2) := by
  have hres : resolveResponse server reqCount initialPos rh
      = ⟨some r2, 0, [⟨rh⟩, ⟨none⟩]⟩ := by
    simp only [resolveResponse, h1]
    rw [if_pos hfb, h2]
  have hws : writeStart file r2 0 = [] := by
    simp [writeStart]
  refine ⟨by rw [hres], by rw [hres], ?_⟩
  simp only [doAttempt, hres]
  simp [processResponse_file_eq file r2 0 hok, hws]


/-- Witness for C6: an existing 2-byte destination, a ranged request the
server answers with 200 — the attempt truncates and rewrites the file. -/
theorem download_file_range_fallback_witness :
    (resolveResponse fbServer 0 2 (some 2)).initialPos = 0 ∧
    (resolveResponse fbServer 0 2 (some 2)).requests = [⟨some 2⟩, ⟨none⟩] ∧
    (doAttempt fbServer 0 (some [9, 9]) 2 (some 2)).file
      = some (bytesWritten ⟨200, 5, [[1, 2, 3, 4, 5]], true⟩) :=
  download_file_range_fallback fbServer 0 (some [9, 9]) 2 (some 2) _ _ rfl
    (Or.inr ⟨rfl, by decide⟩) rfl (Or.inl rfl)

/-- C7: after the response stream completes, the attempt is a size-mismatch
failure if and only if `total_size` (the declared content length plus the
current `initial_pos`) is positive and the destination's on-disk size
differs from it; in particular with `total_size = 0` — the case of a missing
content-length header at `initial_pos = 0` — the check passes and the
attempt returns `True`. -/
theorem download_file_size_check (server : ServerOracle) (reqCount : Nat)
    (file : Option (List Nat)) (ip : Nat) (rh : Option Nat) (r : HttpResponse)
    (hres : (resolveResponse server reqCount ip rh).response = some r)
    (hst : r.status = 200 ∨ r.status = 206)
    (hstream : r.streamOk = true) :
    ((doAttempt server reqCount file ip rh).ok = false ↔
      (0 < r.contentLength + (resolveResponse server reqCount ip rh).initialPos ∧
        ((doAttempt server reqCount file ip rh).file.getD []).length
          ≠ r.contentLength
              + (resolveResponse server reqCount ip rh).initialPos)) ∧
    (r.contentLength + (resolveResponse server reqCount ip rh).initialPos = 0 →
      (doAttempt server reqCount file ip rh).ok = true) := by
  rcases e : resolveResponse server reqCount ip rh with ⟨resp, ip2, reqs⟩
  rw [e] at hres
  simp only at hres
  subst hres
  simp only [doAttempt, e]
  constructor
  · exact processResponse_ok_iff file r ip2 hst hstream
  · intro h0
    have hiff := processResponse_ok_iff file r ip2 hst hstream
    rw [h0] at hiff
    simp at hiff
    exact hiff



/-- Witness for C7: a fresh download of 3 declared and delivered bytes
passes the size check and succeeds. -/
theorem download_file_size_check_witness :
    (((doAttempt szServer 0 none 0 none).ok = false ↔
      (0 < szResp.contentLength + (resolveResponse szServer 0 0 none).initialPos ∧
        ((doAttempt szServer 0 none 0 none).file.getD []).length
          ≠ szResp.contentLength
              + (resolveResponse szServer 0 0 none).initialPos)) ∧
    (szResp.contentLength + (resolveResponse szServer 0 0 none).initialPos = 0 →
      (doAttempt szServer 0 none 0 none).ok = true)) ∧
    (doAttempt szServer 0 none 0 none).ok = true :=
  ⟨download_file_size_check szServer 0 none 0 none szResp rfl (Or.inl rfl) rfl,
    by decide⟩

/-- C8: if the destination holds `N > 0` bytes and the server honors the
`Range: bytes=N-` request with a 206 response declaring and streaming the
remaining `T - N` bytes of a `T`-byte file, then the single fetch call
returns `True`, the final on-disk size is exactly `T`, and the first `N`
bytes on disk are the untouched original content (append mode). -/
theorem download_file_resume_correct (server : ServerOracle)
    (content : List Nat) (r : HttpResponse) (T : Nat)
    (hN : 0 < content.length) (hT : content.length < T)
    (hresp : server 0 ⟨some content.length⟩ = .resp r)
    (h206 : r.status = 206)
    (hcl : r.contentLength = T - content.length)
    (hbody : (bytesWritten r).length = T - content.length)
    (hstream : r.streamOk = true) :
    (download_file server (some content) 3).success = true ∧
    (download_file server (some content) 3).file
      = some (content ++ bytesWritten r) ∧
    ((download_file server (some content) 3).file.getD []).length = T ∧
    ((download_file server (some content) 3).file.getD []).take content.length
      = content := by
  have hres : resolveResponse server 0 content.length (some content.length)
      = ⟨some r, content.length, [⟨some content.length⟩]⟩ := by
    simp only [resolveResponse, hresp]
    rw [if_neg (by simp [h206])]
  have hws : writeStart (some content) r content.length = content := by
    simp [writeStart, h206, hN]
  have hlen : (writeStart (some content) r content.length
      ++ bytesWritten r).length = r.contentLength + content.length := by
    rw [hws, List.length_append, hbody, hcl]
    omega
  have hpr : processResponse (some content) r content.length
      = ⟨true, some (content ++ bytesWritten r)⟩ := by
    rw [processResponse_eq _ _ _ (Or.inr h206) hstream,
      if_neg (by simp [hlen]), hws]
  have ha : doAttempt server 0 (some content) content.length
      (some content.length)
      = ⟨true, some (content ++ bytesWritten r), content.length,
          [⟨some content.length⟩]⟩ := by
    simp only [doAttempt, hres]
    rw [hpr]
  have hrun : download_file server (some content) 3
      = ⟨true, some (content ++ bytesWritten r), [⟨some content.length⟩],
          []⟩ := by
    have e : download_file server (some content) 3
        = fetchGo server 3 (2 + 1) 0 0 (some content) content.length
            (some content.length) := rfl
    rw [e, fetchGo_step, ha]
    simp
  refine ⟨by rw [hrun], by rw [hrun], ?_, ?_⟩
  · rw [hrun]
    show (content ++ bytesWritten r).length = T
    rw [List.length_append, hbody]
    omega
  · rw [hrun]
    show (content ++ bytesWritten r).take content.length = content
    exact List.take_left content (bytesWritten r)



/-- Witness for C8: a 1-byte partial file of a 2-byte remote object is
completed in place by one fetch call. -/
theorem download_file_resume_correct_witness :
    (download_file rsServer (some [5]) 3).success = true ∧
    (download_file rsServer (some [5]) 3).file
      = some ([5] ++ bytesWritten rsResp) ∧
    ((download_file rsServer (some [5]) 3).file.getD []).length = 2 ∧
    ((download_file rsServer (some [5]) 3).file.getD []).take
      (List.length [5]) = [5] :=
  download_file_resume_correct rsServer [5] rsResp 2 (by decide) (by decide)
    rfl rfl rfl (by decide) rfl

/-- Skip step of the orchestrator loop (lines 146-149): an existing
destination only bumps the success count. -/
theorem orchLoop_cons_skip (servers : PyVal → ServerOracle) (f : PyVal)
    (rest : List PyVal) (st : OrchState)
    (h : (st.fs f).isSome = true) :
    orchLoop servers (f :: rest) st
      = orchLoop servers rest
          { st with successCount := st.successCount + 1 } := by
  simp [orchLoop, h]

/-- Fetch-and-succeed step of the orchestrator loop (lines 152-154). -/
theorem orchLoop_cons_fetch_succ (servers : PyVal → ServerOracle) (f : PyVal)
    (rest : List PyVal) (st : OrchState)
    (h : ¬ (st.fs f).isSome = true)
    (hs : (download_file (servers f) (st.fs f) 3).success = true) :
    orchLoop servers (f :: rest) st
      = orchLoop servers rest
          { st with
            successCount := st.successCount + 1,
            fs := fun n =>
              if n = f then (download_file (servers f) (st.fs f) 3).file
              else st.fs n,
            fetchCalls := st.fetchCalls ++ [f] } := by
  simp [orchLoop, h, hs]

/-- Fetch-and-fail step of the orchestrator loop (lines 155-156). -/
theorem orchLoop_cons_fetch_fail (servers : PyVal → ServerOracle) (f : PyVal)
    (rest : List PyVal) (st : OrchState)
    (h : ¬ (st.fs f).isSome = true)
    (hs : ¬ (download_file (servers f) (st.fs f) 3).success = true) :
    orchLoop servers (f :: rest) st
      = orchLoop servers rest
          { st with
            failedFiles := st.failedFiles ++ [f],
            fs := fun n =>
              if n = f then (download_file (servers f) (st.fs f) 3).file
              else st.fs n,
            fetchCalls := st.fetchCalls ++ [f] } := by
  simp [orchLoop, h, hs]

/-- An existing destination is never touched again by the rest of the loop. -/
theorem orchLoop_fs_mono (servers : PyVal → ServerOracle) (name : PyVal) :
    ∀ (rest : List PyVal) (st : OrchState),
      (st.fs name).isSome = true →
      (orchLoop servers rest st).fs name = st.fs name := by
  intro rest
  induction rest with
  | nil => intro st h; rfl
  | cons f rest ih =>
    intro st h
    by_cases hex : (st.fs f).isSome = true
    · rw [orchLoop_cons_skip servers f rest st hex]
      exact ih _ h
    · have hne : ¬ name = f := by
        intro hnf
        rw [hnf] at h
        exact hex h
      by_cases hsucc : (download_file (servers f) (st.fs f) 3).success = true
      · rw [orchLoop_cons_fetch_succ servers f rest st hex hsucc]
        refine (ih _ ?_).trans ?_ <;> simp [hne, h]
      · rw [orchLoop_cons_fetch_fail servers f rest st hex hsucc]
        refine (ih _ ?_).trans ?_ <;> simp [hne, h]

/-- Processing a response either fails or leaves an existing file: `open`
creates the destination before any later check can raise. -/
theorem processResponse_ok_or (f : Option (List Nat)) (r : HttpResponse)
    (ip : Nat) :
    (processResponse f r ip).ok = false
      ∨ (processResponse f r ip).file.isSome = true := by
  simp only [processResponse]
  split
  · left; rfl
  · split
    · right; rfl
    · split
      · right; rfl
      · right; rfl

/-- An attempt either fails or leaves an existing destination file. -/
theorem doAttempt_ok_or (server : ServerOracle) (c : Nat)
    (f : Option (List Nat)) (ip : Nat) (rh : Option Nat) :
    (doAttempt server c f ip rh).ok = false
      ∨ (doAttempt server c f ip rh).file.isSome = true := by
  cases e : (resolveResponse server c ip rh).response with
  | none => left; simp [doAttempt, e]
  | some r =>
    rcases processResponse_ok_or f r
        (resolveResponse server c ip rh).initialPos with h | h
    · left; simpa [doAttempt, e] using h
    · right; simpa [doAttempt, e] using h

/-- A retry loop that returns `True` leaves an existing destination file. -/
theorem fetchGo_success_isSome (server : ServerOracle) (m : Nat) :
    ∀ (remaining attempt c : Nat) (f : Option (List Nat)) (ip : Nat)
      (rh : Option Nat),
      (fetchGo server m remaining attempt c f ip rh).success = true →
      (fetchGo server m remaining attempt c f ip rh).file.isSome = true := by
  intro remaining
  induction remaining with
  | zero => intro attempt c f ip rh h; simp [fetchGo] at h
  | succ k ih =>
    intro attempt c f ip rh h
    by_cases h1 : (doAttempt server c f ip rh).ok = true
    · simp only [fetchGo, h1, if_true]
      rcases doAttempt_ok_or server c f ip rh with h2 | h2
      · rw [h1] at h2; cases h2
      · exact h2
    · by_cases h2 : attempt < m - 1
      · simp only [fetchGo, h1] at h ⊢
        simp only [Bool.false_eq_true, if_false, h2, if_true] at h ⊢
        exact ih _ _ _ _ _ h
      · simp [fetchGo, h1, h2] at h

/-- A `download_file` call that returns `True` leaves an existing
destination file. -/
theorem download_file_success_isSome (server : ServerOracle)
    (destFile : Option (List Nat)) (m : Nat)
    (h : (download_file server destFile m).success = true) :
    (download_file server destFile m).file.isSome = true :=
  fetchGo_success_isSome server m m 0 0 destFile (initPosOf destFile)
    (resumeHeaderOf destFile) h

/-- The loop only ever appends to `failed_files`. -/
theorem orchLoop_failed_prefix (servers : PyVal → ServerOracle) :
    ∀ (rest : List PyVal) (st : OrchState),
      ∃ extra, (orchLoop servers rest st).failedFiles
        = st.failedFiles ++ extra := by
  intro rest
  induction rest with
  | nil => intro st; exact ⟨[], by simp [orchLoop]⟩
  | cons f rest ih =>
    intro st
    by_cases hex : (st.fs f).isSome = true
    · rw [orchLoop_cons_skip servers f rest st hex]
      obtain ⟨extra, he⟩ := ih _
      exact ⟨extra, he⟩
    · by_cases hsucc : (download_file (servers f) (st.fs f) 3).success = true
      · rw [orchLoop_cons_fetch_succ servers f rest st hex hsucc]
        obtain ⟨extra, he⟩ := ih _
        exact ⟨extra, he⟩
      · rw [orchLoop_cons_fetch_fail servers f rest st hex hsucc]
        obtain ⟨extra, he⟩ := ih _
        refine ⟨f :: extra, ?_⟩
        rw [he]
        simp

/-- If the loop added nothing to `failed_files`, every processed filename
ends up with an existing destination. -/
theorem orchLoop_all_present (servers : PyVal → ServerOracle) :
    ∀ (rest : List PyVal) (st : OrchState),
      (orchLoop servers rest st).failedFiles = st.failedFiles →
      ∀ name ∈ rest, ((orchLoop servers rest st).fs name).isSome = true := by
  intro rest
  induction rest with
  | nil => intro st h name hn; cases hn
  | cons f rest ih =>
    intro st h name hn
    by_cases hex : (st.fs f).isSome = true
    · rw [orchLoop_cons_skip servers f rest st hex] at h ⊢
      rcases List.mem_cons.mp hn with heq | hn'
      · subst heq
        rw [orchLoop_fs_mono servers name rest
          { st with successCount := st.successCount + 1 } hex]
        exact hex
      · exact ih _ h name hn'
    · by_cases hsucc : (download_file (servers f) (st.fs f) 3).success = true
      · rw [orchLoop_cons_fetch_succ servers f rest st hex hsucc] at h ⊢
        rcases List.mem_cons.mp hn with heq | hn'
        · subst heq
          rw [orchLoop_fs_mono servers name rest
            { st with
              successCount := st.successCount + 1,
              fs := fun n =>
                if n = name
                then (download_file (servers name) (st.fs name) 3).file
                else st.fs n,
              fetchCalls := st.fetchCalls ++ [name] }
            (by simp
              [download_file_success_isSome (servers name) (st.fs name) 3
                hsucc])]
          simp [download_file_success_isSome (servers name) (st.fs name) 3
            hsucc]
        · exact ih _ h name hn'
      · rw [orchLoop_cons_fetch_fail servers f rest st hex hsucc] at h
        obtain ⟨extra, he⟩ := orchLoop_failed_prefix servers rest
          { st with
            failedFiles := st.failedFiles ++ [f],
            fs := fun n =>
              if n = f then (download_file (servers f) (st.fs f) 3).file
              else st.fs n,
            fetchCalls := st.fetchCalls ++ [f] }
        rw [he] at h
        simp at h

/-- A loop over filenames that all already exist performs no fetch call. -/
theorem orchLoop_all_skip (servers : PyVal → ServerOracle) :
    ∀ (rest : List PyVal) (st : OrchState),
      (∀ name ∈ rest, (st.fs name).isSome = true) →
      (orchLoop servers rest st).fetchCalls = st.fetchCalls := by
  intro rest
  induction rest with
  | nil => intro st h; rfl
  | cons f rest ih =>
    intro st h
    rw [orchLoop_cons_skip servers f rest st (h f (by simp))]
    exact ih _ fun name hn => h name (by simp [hn])

/-- C3: the orchestrator is idempotent at the download level.  First, a
filename whose destination exists is handled by bumping the success count
and moving on — `download_file` is not invoked and nothing else changes
(no integrity re-check on skip).  Second, after a fully successful run, a
second run on the resulting filesystem — under any network whatsoever —
invokes the fetcher zero times. -/
theorem download_models_idempotent (listing : ListingOutcome)
    (servers servers2 : PyVal → ServerOracle)
    (fs0 : PyVal → Option (List Nat)) :
    (∀ (st : OrchState) (name : PyVal) (rest : List PyVal),
        (st.fs name).isSome = true →
        orchLoop servers (name :: rest) st
          = orchLoop servers rest
              { st with successCount := st.successCount + 1 }) ∧
    ((download_models listing servers fs0).1 = true →
      (download_models listing servers2
          ((download_models listing servers fs0).2.fs)).2.fetchCalls
        = []) := by
  constructor
  · intro st name rest h
    exact orchLoop_cons_skip servers name rest st h
  · intro hrun
    have h1 : (orchLoop servers (get_file_list listing)
        ⟨0, [], fs0, []⟩).failedFiles = [] := by
      simpa [download_models, List.isEmpty_iff] using hrun
    have hall := orchLoop_all_present servers (get_file_list listing)
      ⟨0, [], fs0, []⟩ h1
    exact orchLoop_all_skip servers2 (get_file_list listing)
      ⟨0, [], (orchLoop servers (get_file_list listing) ⟨0, [], fs0, []⟩).fs,
        []⟩
      fun name hn => hall name hn

/-- Witness for C3: on a filesystem where every destination exists, the
skip step applies to a concrete state, the first run succeeds by skipping
everything, and the second run performs zero fetch calls. -/
theorem download_models_idempotent_witness :
    orchLoop inertServers [PyVal.strV "config.json"]
        ⟨0, [], allPresentFs, []⟩
      = orchLoop inertServers [] ⟨0 + 1, [], allPresentFs, []⟩ ∧
    (download_models .raised inertServers
        ((download_models .raised inertServers allPresentFs).2.fs)).2.fetchCalls
      = [] := by
  have h := download_models_idempotent .raised inertServers inertServers
    allPresentFs
  exact ⟨h.1 ⟨0, [], allPresentFs, []⟩ (PyVal.strV "config.json") [] rfl,
    h.2 rfl⟩

/-- C1 (failing run): a destination holds 2 bytes, so the call fixes
`initial_pos = 2` and `resume_header = bytes=2-` before the loop.  The first
attempt gets a 206 response, appends one byte — the disk now holds 3 bytes,
`[5, 5, 7]` — and then the stream dies.  Because neither `initial_pos` nor
`resume_header` is recomputed from the disk inside the loop, the second and
third attempts still send `Range: bytes=2-`, not the current on-disk size 3:
all three issued requests carry range start 2. -/
theorem retry_reuses_stale_offset :
    (doAttempt staleServer 0 (some [5, 5]) 2 (some 2)).file
      = some [5, 5, 7] ∧
    (download_file staleServer (some [5, 5]) 3).file = some [5, 5, 7] ∧
    (download_file staleServer (some [5, 5]) 3).requests
      = [⟨some 2⟩, ⟨some 2⟩, ⟨some 2⟩] ∧
    (download_file staleServer (some [5, 5]) 3).success = false :=
  ⟨rfl, rfl, rfl, rfl⟩

/-- C2 (failing run): the listing names `config.json`; a 3-byte partial
copy of the expected 10-byte file is on disk, and the network stands ready
to serve the remaining 7 bytes to any resumed request.  The orchestrator
nevertheless skips the file because the destination exists, counts it as a
success, invokes the fetcher zero times, and leaves the file partial. -/
theorem partial_file_skipped_not_resumed :
    get_file_list oneFileListing = [PyVal.strV "config.json"] ∧
    (download_models oneFileListing readyServers partialFs).2.fetchCalls
      = [] ∧
    (download_models oneFileListing readyServers partialFs).2.successCount
      = 1 ∧
    (download_models oneFileListing readyServers partialFs).2.fs
      (PyVal.strV "config.json") = some [1, 2, 3] ∧
    (download_models oneFileListing readyServers partialFs).1 = true ∧
    (download_file (readyServers (PyVal.strV "config.json"))
        (some [1, 2, 3]) 3).file
      = some [1, 2, 3, 4, 5, 6, 7, 8, 9, 10] :=
  ⟨rfl, rfl, rfl, rfl, rfl, rfl⟩

/-- C9: the process exit code is 0 exactly when `download_models` returned
`True`, which holds exactly when `failed_files` stayed empty — equivalently,
when the success count covers the whole file list, every file being either
already present or fetched successfully.  Interrupts and unhandled errors
exit with code 1, the interrupt with its own distinct message. -/
theorem main_exit_codes (listing : ListingOutcome)
    (servers : PyVal → ServerOracle) (fs0 : PyVal → Option (List Nat)) :
    (mainExit (.completed (download_models listing servers fs0).1) = 0 ↔
      (download_models listing servers fs0).2.failedFiles = []) ∧
    ((download_models listing servers fs0).1 = true ↔
      (download_models listing servers fs0).2.successCount
        = (get_file_list listing).length) ∧
    mainExit .interrupted = 1 ∧
    mainExit .errored = 1 ∧
    mainMessage .interrupted = some "下载已取消" ∧
    mainMessage .errored = some "发生错误" := by
  have hacc := orchLoop_count servers (get_file_list listing) ⟨0, [], fs0, []⟩
  refine ⟨?_, ?_, rfl, rfl, rfl, rfl⟩
  · by_cases hff : (orchLoop servers (get_file_list listing)
        ⟨0, [], fs0, []⟩).failedFiles = []
    · simp [download_models, mainExit, hff]
    · simp [download_models, mainExit, hff, List.isEmpty_iff]
  · simp only [download_models, List.isEmpty_iff]
    simp at hacc
    constructor
    · intro h
      rw [h] at hacc
      simpa using hacc
    · intro h
      rw [h] at hacc
      have : (orchLoop servers (get_file_list listing)
          ⟨0, [], fs0, []⟩).failedFiles.length = 0 := by omega
      simpa using this

/-- Witness for C4: the theorem applied to a concrete failing listing, whose
result is exactly the default list. -/
theorem get_file_list_all_or_nothing_witness :
    ((∃ status data d, ListingOutcome.raised = .ok status data ∧
        status = 200 ∧ pyGet "Data" data = .ok d ∧ isPyList d = true ∧
        ∀ p ∈ get_file_list .raised,
          ∃ item ∈ listItems d, pyGet "Path" item = .ok p) ∨
      get_file_list .raised = REQUIRED_FILES.map PyVal.strV) ∧
    REQUIRED_FILES.length = 10 :=
  get_file_list_all_or_nothing .raised

/-- Witness for C9: the theorem applied at a concrete run in which every
destination already exists. -/
theorem main_exit_codes_witness :
    (mainExit (.completed
        (download_models .raised inertServers allPresentFs).1) = 0 ↔
      (download_models .raised inertServers allPresentFs).2.failedFiles
        = []) ∧
    ((download_models .raised inertServers allPresentFs).1 = true ↔
      (download_models .raised inertServers allPresentFs).2.successCount
        = (get_file_list .raised).length) ∧
    mainExit .interrupted = 1 ∧
    mainExit .errored = 1 ∧
    mainMessage .interrupted = some "下载已取消" ∧
    mainMessage .errored = some "发生错误" :=
  main_exit_codes .raised inertServers allPresentFs

/-- Witness for C10: the theorem applied at a concrete run. -/
theorem download_models_accounting_witness :
    (download_models .raised inertServers allPresentFs).2.successCount
        + (download_models .raised inertServers
            allPresentFs).2.failedFiles.length
      = (get_file_list .raised).length ∧
    ((download_models .raised inertServers allPresentFs).1 = true ↔
      (download_models .raised inertServers allPresentFs).2.failedFiles
        = []) :=
  download_models_accounting .raised inertServers allPresentFs
